import Mathlib

/-!
Shallow embedding of the capa IDA-backed per-instruction feature extractor
(`capa/features/extractors/ida/insn.py`) and of the batch worker
(`scripts/bulk-process.py`), with theorems settling the specified properties.

Conventions of the embedding:
* the disassembler backend (IDA) is an opaque data source; its query surface
  is a structure of functions (`IdaState`);
* Python strings are modelled as lists of code points (`List Nat`);
* Python generators are modelled as Lean lists; machine addresses are `Nat`;
* helper functions of the repository that sit outside the given sources
  (`capa.features.extractors.helpers`, `capa.features.extractors.ida.helpers`,
  `capa.main`) are modelled from the specification; each such definition is
  marked with a doc comment starting with `Modelled from the spec:`.
-/

/-- IDA operand type code `idaapi.o_void` (absent operand slot). -/
def o_void : Nat := 0

/-- IDA operand type code `idaapi.o_reg` (register operand). -/
def o_reg : Nat := 1

/-- IDA operand type code `idaapi.o_mem` (direct memory operand). -/
def o_mem : Nat := 2

/-- IDA operand type code `idaapi.o_phrase` (memory phrase operand). -/
def o_phrase : Nat := 3

/-- IDA operand type code `idaapi.o_displ` (memory displacement operand). -/
def o_displ : Nat := 4

/-- IDA operand type code `idaapi.o_imm` (immediate operand). -/
def o_imm : Nat := 5

/-- IDA instruction type code `idaapi.NN_xor`. The codes are opaque enum tags;
only their distinctness matters to the extractor. -/
def NN_xor : Nat := 745

/-- IDA instruction type code `idaapi.NN_push`. -/
def NN_push : Nat := 588

/-- IDA instruction type code `idaapi.NN_mov`. -/
def NN_mov : Nat := 122

/-- IDA function flag `idaapi.FUNC_THUNK`. -/
def FUNC_THUNK : Nat := 0x80

/-- Maximum referenced-byte span read by the bytes extractor
(`capa.features.MAX_BYTES_FEATURE_SIZE`). -/
def MAX_BYTES_FEATURE_SIZE : Nat := 0x100

/-- One operand slot of a decoded instruction (IDA `op_t`). The fields mirror
the backend's per-operand queries: kind (`type`), the raw register field
(`reg`, a union slot that is present whatever the operand kind and is zero for
unused slots), the raw encoded value, the operand byte width, the write flag
(helper `is_op_write`), the stack-variable flag (helper `is_op_stack_var`),
and the displacement component resolved by helper `get_op_phrase_info`
(`none` when the phrase info carries no offset entry). -/
structure Operand where
  n : Nat
  type : Nat
  reg : Nat
  value : Nat
  width : Nat
  isWrite : Bool
  isStackVar : Bool
  phraseOffset : Option Nat
deriving DecidableEq

/-- One decoded instruction (IDA `insn_t`): address, instruction type code,
canonical mnemonic (`get_canon_mnem`), real operand list, call / return
classification (`idaapi.is_call_insn` / `idaapi.is_ret_insn`), and the
stack-pointer-modification flag (helper `is_sp_modified`). -/
structure Insn where
  ea : Nat
  itype : Nat
  canonMnem : String
  ops : List Operand
  isCall : Bool
  isRet : Bool
  spModified : Bool
deriving DecidableEq

/-- IDA `func_t`: only the flag word is consumed by the extractor. -/
structure Func where
  flags : Nat
deriving DecidableEq

/-- One basic block: half-open address range `[start_ea, end_ea)`. -/
structure BasicBlock where
  start_ea : Nat
  end_ea : Nat
deriving DecidableEq

/-- The resolved import table: address to `(module, symbol)`, `none` for
unmapped addresses (result of `capa.features.extractors.ida.helpers.get_file_imports`). -/
def ImportMap : Type := Nat → Option (String × String)

/-- The opaque backend query surface consumed by the extractor (IDA via
`idaapi` / `idc` / `idautils` and the address-space helpers). Every field is a
read-only query; the spec treats the backend as immutable during a run. -/
structure IdaState where
  fileImports : ImportMap
  isMapped : Nat → Bool
  codeRefsFrom : Nat → List Nat
  dataRefsFrom : Nat → List Nat
  getFunc : Nat → Option Func
  getseg : Nat → Option Nat
  getDisasm : Nat → String
  getCmt : Nat → Option String
  readBytesAt : Nat → Nat → Option (List Nat)
  findStringAt : Nat → Option String
  instructionsInRange : Nat → Nat → List Insn

/-- The feature vocabulary emitted to the rule engine (`capa.features` and
`capa.features.insn`). Values are compared structurally, as in the source. -/
inductive Feature where
  | Number (v : Int)
  | Offset (v : Int)
  | Bytes (bs : List Nat)
  | String (s : String)
  | Mnemonic (s : String)
  | APIName (s : String)
  | Characteristic (tag : String)
deriving DecidableEq

/-- Unused operand slots of the fixed IDA operand array are void operands with
zeroed fields; `Op1` / `Op2` read those slots directly. -/
def default_op : Operand :=
  { n := 0, type := o_void, reg := 0, value := 0, width := 0,
    isWrite := false, isStackVar := false, phraseOffset := none }

/-- Slot `insn.Op1` of the fixed operand array. -/
def op1 (insn : Insn) : Operand := insn.ops.getD 0 default_op

/-- Slot `insn.Op2` of the fixed operand array. -/
def op2 (insn : Insn) : Operand := insn.ops.getD 1 default_op

/-- Modelled from the spec: helper `get_insn_ops(insn, target_ops)` of
`capa.features.extractors.ida.helpers` (not under the given sources)
enumerates the instruction's operands, keeping those of the requested kinds. -/
def get_insn_ops (insn : Insn) (target_ops : List Nat) : List Operand :=
  insn.ops.filter (fun op => target_ops.contains op.type)

/-- Modelled from the spec: helper `mask_op_val(op)` of
`capa.features.extractors.ida.helpers` (not under the given sources) masks the
raw immediate encoding to the operand's byte width. -/
def mask_op_val (op : Operand) : Nat :=
  op.value % 2 ^ (8 * op.width)

/-- Modelled from the spec: helper `is_sp_modified(insn)` of
`capa.features.extractors.ida.helpers` (not under the given sources) reports
the backend's stack-pointer-modification flag for the instruction. -/
def is_sp_modified (insn : Insn) : Bool := insn.spModified

/-- Modelled from the spec: helper `is_op_write(insn, op)` of
`capa.features.extractors.ida.helpers` (not under the given sources) reports
the backend's per-operand write flag. -/
def is_op_write (_insn : Insn) (op : Operand) : Bool := op.isWrite

/-- Modelled from the spec: helper `is_op_stack_var(ea, n)` of
`capa.features.extractors.ida.helpers` (not under the given sources) reports
whether the operand is a stack-frame reference. -/
def is_op_stack_var (op : Operand) : Bool := op.isStackVar

/-- Modelled from the spec: helper `get_op_phrase_info(op)` of
`capa.features.extractors.ida.helpers` (not under the given sources) returns
the phrase decomposition; only its optional `offset` entry is consumed. -/
def get_op_phrase_info (op : Operand) : Option Nat := op.phraseOffset

/-- Modelled from the spec: helper `is_operand_equal(op1, op2)` of
`capa.features.extractors.ida.helpers` (not under the given sources) tests
syntactic identity of two operands. -/
def is_operand_equal (a b : Operand) : Bool := decide (a = b)

/-- Modelled from the spec: helper `all_zeros(bytes)` of
`capa.features.extractors.helpers` (not under the given sources) tests for an
all-zero byte run. -/
def all_zeros (bs : List Nat) : Bool := bs.all (fun b => b == 0)

/-- Modelled from the spec: helper `twos_complement(val, bits)` of
`capa.features.extractors.helpers` (not under the given sources) reinterprets
a raw fixed-width field as a two's-complement signed integer: if the top bit
of the field is set, subtract `2 ^ bits`. -/
def twos_complement (val : Nat) (bits : Nat) : Int :=
  if val &&& 1 <<< (bits - 1) != 0 then (val : Int) - ((1 <<< bits : Nat) : Int)
  else (val : Int)

/-- Modelled from the spec: helper `generate_api_features(api, va)` of
`capa.features.extractors.helpers` (not under the given sources) converts one
resolved name into its module-qualified and unqualified API features, both
tagged at the call instruction's address. -/
def generate_api_features (api : String) (va : Nat) : List (Feature × Nat) :=
  [(Feature.APIName api, va), (Feature.APIName ((api.splitOn ".").getLastD api), va)]

/-- The run-scoped import cache (`_file_imports_cache`): `none` before the
first `get_imports` call, `some` of the resolved table afterwards. -/
def ImportCache : Type := Option ImportMap

/-- Embeds `get_imports`: build the import table on first access, reuse the
memoized table afterwards. State is threaded explicitly instead of the
module-global `_file_imports_cache`. -/
def get_imports (st : IdaState) (cache : ImportCache) : ImportMap × ImportCache :=
  match cache with
  | none => (st.fileImports, some st.fileImports)
  | some m => (m, some m)

/-- Loop body of `check_for_api_call` for one code reference `ref`: a known
imported address yields `module.symbol`; otherwise a reference into a thunk-flagged
function is followed through exactly one level of data references, each
matched against the import table. `imp` is the table returned by
`get_imports()` for this run. -/
def api_names_for_ref (imp : ImportMap) (st : IdaState) (ref : Nat) : List String :=
  match imp ref with
  | some info => [info.1 ++ "." ++ info.2]
  | none =>
    match st.getFunc ref with
    | none => []
    | some f =>
      if f.flags &&& FUNC_THUNK != 0 then
        (st.dataRefsFrom ref).filterMap (fun thunk_ref =>
          match imp thunk_ref with
          | some info => some (info.1 ++ "." ++ info.2)
          | none => none)
      else []

/-- Embeds `check_for_api_call(insn)`: applies only to call instructions; the
handling of each code reference is `api_names_for_ref`. -/
def check_for_api_call (imp : ImportMap) (st : IdaState) (insn : Insn) : List String :=
  if !insn.isCall then []
  else (st.codeRefsFrom insn.ea).flatMap (api_names_for_ref imp st)

/-- Embeds `extract_insn_api_features(f, bb, insn)`. -/
def extract_insn_api_features (imp : ImportMap) (st : IdaState)
    (_f : Func) (_bb : BasicBlock) (insn : Insn) : List (Feature × Nat) :=
  (check_for_api_call imp st insn).flatMap (fun api => generate_api_features api insn.ea)

/-- Embeds `extract_insn_number_features(f, bb, insn)`: skip returns and
stack-pointer-adjusting instructions, then emit the masked value of each
immediate operand that is not a mapped address. -/
def extract_insn_number_features (st : IdaState)
    (_f : Func) (_bb : BasicBlock) (insn : Insn) : List (Feature × Nat) :=
  if insn.isRet then []
  else if is_sp_modified insn then []
  else
    (get_insn_ops insn [o_imm]).filterMap (fun op =>
      let const := mask_op_val op
      if st.isMapped const then none
      else some (Feature.Number (const : Int), insn.ea))

/-- Embeds `extract_insn_bytes_features(f, bb, insn)`. -/
def extract_insn_bytes_features (st : IdaState)
    (_f : Func) (_bb : BasicBlock) (insn : Insn) : List (Feature × Nat) :=
  if insn.isCall then []
  else
    (st.dataRefsFrom insn.ea).filterMap (fun ref =>
      match st.readBytesAt ref MAX_BYTES_FEATURE_SIZE with
      | none => none
      | some extracted_bytes =>
        if !extracted_bytes.isEmpty && !all_zeros extracted_bytes then
          some (Feature.Bytes extracted_bytes, insn.ea)
        else none)

/-- Embeds `extract_insn_string_features(f, bb, insn)`. -/
def extract_insn_string_features (st : IdaState)
    (_f : Func) (_bb : BasicBlock) (insn : Insn) : List (Feature × Nat) :=
  (st.dataRefsFrom insn.ea).filterMap (fun ref =>
    match st.findStringAt ref with
    | none => none
    | some found =>
      if !found.isEmpty then some (Feature.String found, insn.ea) else none)

/-- Embeds `extract_insn_offset_features(f, bb, insn)`: for phrase and
displacement operands that are not stack variables and whose raw displacement
is not a mapped address, emit the displacement reinterpreted as a 32-bit
two's-complement signed integer. -/
def extract_insn_offset_features (st : IdaState)
    (_f : Func) (_bb : BasicBlock) (insn : Insn) : List (Feature × Nat) :=
  (get_insn_ops insn [o_phrase, o_displ]).filterMap (fun op =>
    if is_op_stack_var op then none
    else
      let op_off := (get_op_phrase_info op).getD 0
      if st.isMapped op_off then none
      else some (Feature.Offset (twos_complement op_off 32), insn.ea))

/-- Python code point of the lowercase image of a code point: `str.lower`
restricted to the ASCII letters, the fragment the keyword test exercises. -/
def pyLowerCode (n : Nat) : Nat :=
  if 65 ≤ n ∧ n ≤ 90 then n + 32 else n

/-- Python `str.isspace` on one code point (ASCII whitespace as stripped by
`str.strip()`). -/
def pyIsSpaceCode (n : Nat) : Bool :=
  n == 32 || n == 9 || n == 10 || n == 13 || n == 11 || n == 12

/-- Code points of a string (the embedding's view of a Python `str`). -/
def strCodes (s : String) : List Nat := s.toList.map Char.toNat

/-- Python `str.strip()`: drop leading and trailing whitespace. -/
def pyStrip (l : List Nat) : List Nat :=
  ((l.dropWhile pyIsSpaceCode).reverse.dropWhile pyIsSpaceCode).reverse

/-- Python `str.lower()` over code points. -/
def pyLower (l : List Nat) : List Nat := l.map pyLowerCode

/-- Embeds `contains_stack_cookie_keywords(s)`: false for an absent or empty
string; otherwise strip and lowercase, require the substring `cookie`, then
require `stack` or `security`. -/
def contains_stack_cookie_keywords (s : Option String) : Bool :=
  match s with
  | none => false
  | some t =>
    let l := strCodes t
    if l.isEmpty then false
    else
      let u := pyLower (pyStrip l)
      if decide (strCodes "cookie" <:+: u) then
        decide (strCodes "stack" <:+: u) || decide (strCodes "security" <:+: u)
      else false

/-- Embeds `bb_stack_cookie_registers(bb)`: over the block's instructions,
whenever the rendered disassembly line matches the keyword test, collect the
register ids of the written register operands. -/
def bb_stack_cookie_registers (st : IdaState) (bb : BasicBlock) : List Nat :=
  (st.instructionsInRange bb.start_ea bb.end_ea).flatMap (fun insn =>
    if contains_stack_cookie_keywords (some (st.getDisasm insn.ea)) then
      (get_insn_ops insn [o_reg]).filterMap (fun op =>
        if is_op_write insn op then some op.reg else none)
    else [])

/-- Embeds `is_nzxor_stack_cookie(f, bb, insn)`: the instruction's own inline
comment matches the keyword test, or the raw register field of slot `Op1` or
`Op2` is among the block's stack-cookie registers. -/
def is_nzxor_stack_cookie (st : IdaState) (_f : Func) (bb : BasicBlock) (insn : Insn) : Bool :=
  if contains_stack_cookie_keywords (st.getCmt insn.ea) then true
  else
    let stack_cookie_regs := bb_stack_cookie_registers st bb
    [(op1 insn).reg, (op2 insn).reg].any (fun op_reg => stack_cookie_regs.contains op_reg)

/-- Embeds `extract_insn_nzxor_characteristic_features(f, bb, insn)`. -/
def extract_insn_nzxor_characteristic_features (st : IdaState)
    (f : Func) (bb : BasicBlock) (insn : Insn) : List (Feature × Nat) :=
  if insn.itype != NN_xor then []
  else if is_operand_equal (op1 insn) (op2 insn) then []
  else if is_nzxor_stack_cookie st f bb insn then []
  else [(Feature.Characteristic "nzxor", insn.ea)]

/-- Embeds `extract_insn_mnemonic_features(f, bb, insn)`. -/
def extract_insn_mnemonic_features
    (_f : Func) (_bb : BasicBlock) (insn : Insn) : List (Feature × Nat) :=
  [(Feature.Mnemonic insn.canonMnem, insn.ea)]

/-- Embeds `extract_insn_peb_access_characteristic_features(f, bb, insn)`. -/
def extract_insn_peb_access_characteristic_features (st : IdaState)
    (_f : Func) (_bb : BasicBlock) (insn : Insn) : List (Feature × Nat) :=
  if insn.itype != NN_push && insn.itype != NN_mov then []
  else if insn.ops.all (fun op => op.type != o_mem) then []
  else
    let disasm := strCodes (st.getDisasm insn.ea)
    if decide (strCodes " fs:30h" <:+: disasm) || decide (strCodes " gs:60h" <:+: disasm) then
      [(Feature.Characteristic "peb access", insn.ea)]
    else []

/-- Embeds `extract_insn_segment_access_features(f, bb, insn)`. -/
def extract_insn_segment_access_features (st : IdaState)
    (_f : Func) (_bb : BasicBlock) (insn : Insn) : List (Feature × Nat) :=
  if insn.ops.all (fun op => op.type != o_mem) then []
  else
    let disasm := strCodes (st.getDisasm insn.ea)
    (if decide (strCodes " fs:" <:+: disasm) then
      [(Feature.Characteristic "fs access", insn.ea)] else []) ++
    (if decide (strCodes " gs:" <:+: disasm) then
      [(Feature.Characteristic "gs access", insn.ea)] else [])

/-- Embeds `extract_insn_cross_section_cflow(f, bb, insn)`. -/
def extract_insn_cross_section_cflow (imp : ImportMap) (st : IdaState)
    (_f : Func) (_bb : BasicBlock) (insn : Insn) : List (Feature × Nat) :=
  (st.codeRefsFrom insn.ea).filterMap (fun ref =>
    if (imp ref).isSome then none
    else match st.getseg ref with
      | none => none
      | some seg =>
        if st.getseg insn.ea = some seg then none
        else some (Feature.Characteristic "cross section flow", insn.ea))

/-- Embeds `extract_function_calls_from(f, bb, insn)`: for a call instruction,
one `calls from` characteristic per code reference, tagged at the reference. -/
def extract_function_calls_from (st : IdaState)
    (_f : Func) (_bb : BasicBlock) (insn : Insn) : List (Feature × Nat) :=
  if insn.isCall then
    (st.codeRefsFrom insn.ea).map (fun ref => (Feature.Characteristic "calls from", ref))
  else []

/-- Embeds `idc.get_operand_type(insn.ea, n)`: the kind of the n-th operand
slot reported by the backend. -/
def get_operand_type (insn : Insn) (n : Nat) : Nat :=
  (insn.ops.getD n default_op).type

/-- Embeds `extract_function_indirect_call_characteristic_features(f, bb, insn)`. -/
def extract_function_indirect_call_characteristic_features (_st : IdaState)
    (_f : Func) (_bb : BasicBlock) (insn : Insn) : List (Feature × Nat) :=
  if insn.isCall && [o_reg, o_phrase, o_displ].contains (get_operand_type insn 0) then
    [(Feature.Characteristic "indirect call", insn.ea)]
  else []

/-- Embeds the tuple `INSTRUCTION_HANDLERS`, in source order. Handlers that
call `get_imports()` internally receive the table the cache returned for this
run (the cache is filled on first access, so every call within one run yields
the same table). -/
def INSTRUCTION_HANDLERS (st : IdaState) (imp : ImportMap) :
    List (Func → BasicBlock → Insn → List (Feature × Nat)) :=
  [ extract_insn_api_features imp st,
    extract_insn_number_features st,
    extract_insn_bytes_features st,
    extract_insn_string_features st,
    extract_insn_offset_features st,
    extract_insn_nzxor_characteristic_features st,
    extract_insn_mnemonic_features,
    extract_insn_peb_access_characteristic_features st,
    extract_insn_cross_section_cflow imp st,
    extract_insn_segment_access_features st,
    extract_function_calls_from st,
    extract_function_indirect_call_characteristic_features st ]

/-- Embeds `extract_features(f, bb, insn)`: run every handler over the
instruction and concatenate the emitted `(Feature, Address)` pairs, threading
the run-scoped import cache. -/
def extract_features (st : IdaState) (f : Func) (bb : BasicBlock) (insn : Insn)
    (cache : ImportCache) : List (Feature × Nat) × ImportCache :=
  let p := get_imports st cache
  ((INSTRUCTION_HANDLERS st p.1).flatMap (fun h => h f bb insn), p.2)

/-- Modelled from the spec: the outcomes of `capa.main.get_extractor` (not
under the given sources). A successful construction carries an opaque
extractor handle; the failure constructors mirror the exception classes the
worker distinguishes (`UnsupportedFormatError`, `UnsupportedRuntimeError`,
and any other raised exception with its rendered message). -/
inductive ExtractorOutcome where
  | ok (extractor : Nat)
  | unsupportedFormatError
  | unsupportedRuntimeError
  | unexpectedError (msg : String)
deriving DecidableEq

/-- Modelled from the spec: the `capa.main` collaborators the worker invokes
(not under the given sources). Metadata, capability maps and match counts are
opaque rendered values; `find_capabilities` returns the capability map and the
count statistics; `update_analysis` is the `meta["analysis"].update(counts)`
step. Exceptions of `get_extractor` are modelled as `ExtractorOutcome` values,
so the worker is a total function of them. -/
structure CapaEnv where
  get_extractor : String → String → ExtractorOutcome
  collect_metadata : String → String → Nat → String
  find_capabilities : String → Nat → String × String
  update_analysis : String → String → String

/-- The record returned by the batch worker: the sample path, the status tag,
the human-readable message present exactly in the error case, and the result
payload (metadata and capabilities) present exactly in the success case. -/
structure CapaResult where
  path : String
  status : String
  error : Option String
  ok : Option (String × String)
deriving DecidableEq

/-- Embeds `get_capa_results(args)` of `scripts/bulk-process.py`: unpack the
`(rules, format, path)` tuple, construct the extractor, and return a tagged
record; each failure kind of the construction is converted into an error
record instead of escaping the worker. -/
def get_capa_results (env : CapaEnv) (args : String × String × String) : CapaResult :=
  let rules := args.1
  let format := args.2.1
  let path := args.2.2
  match env.get_extractor path format with
  | ExtractorOutcome.unsupportedFormatError =>
    { path := path, status := "error",
      error := some ("input file does not appear to be a PE file: " ++ path), ok := none }
  | ExtractorOutcome.unsupportedRuntimeError =>
    { path := path, status := "error",
      error := some "unsupported runtime or Python interpreter", ok := none }
  | ExtractorOutcome.unexpectedError msg =>
    { path := path, status := "error",
      error := some ("unexpected error: " ++ msg), ok := none }
  | ExtractorOutcome.ok extractor =>
    let meta := env.collect_metadata path format extractor
    let caps := env.find_capabilities rules extractor
    { path := path, status := "ok", error := none,
      ok := some (env.update_analysis meta caps.2, caps.1) }

/-! Auxiliary list lemmas about substring search under stripping. -/

theorem infix_dropWhile_iff {α : Type} (f : α → Bool) (p l : List α)
    (hne : p ≠ []) (hf : ∀ c ∈ p, f c = false) :
    p <:+: l.dropWhile f ↔ p <:+: l := by
  constructor
  · intro h
    exact h.trans (List.dropWhile_suffix f).isInfix
  · intro h
    induction l with
    | nil =>
      rw [List.infix_nil] at h
      exact absurd h hne
    | cons a l ih =>
      rw [List.dropWhile_cons]
      split
      · rename_i hfa
        rcases List.infix_cons_iff.mp h with hpre | hinf
        · cases p with
          | nil => exact absurd rfl hne
          | cons b p' =>
            have hb : b = a := (List.cons_prefix_cons.mp hpre).1
            have hfb : f b = false := hf b (List.mem_cons_self b p')
            rw [hb, hfa] at hfb
            exact absurd hfb (by simp)
        · exact ih hinf
      · exact h

theorem infix_reverse_iff {α : Type} (p l : List α) :
    p <:+: l.reverse ↔ p.reverse <:+: l := by
  constructor
  · intro h
    have := List.reverse_infix.mpr h
    simpa using this
  · intro h
    have := List.reverse_infix.mpr h
    simpa using this

theorem infix_pyStrip_iff (p l : List Nat)
    (hne : p ≠ []) (hf : ∀ c ∈ p, pyIsSpaceCode c = false) :
    p <:+: pyStrip l ↔ p <:+: l := by
  unfold pyStrip
  rw [infix_reverse_iff,
      infix_dropWhile_iff pyIsSpaceCode p.reverse _
        (by simpa using hne) (fun c hc => hf c (List.mem_reverse.mp hc)),
      infix_reverse_iff, List.reverse_reverse,
      infix_dropWhile_iff pyIsSpaceCode p _ hne hf]

theorem pyIsSpaceCode_pyLowerCode (n : Nat) :
    pyIsSpaceCode (pyLowerCode n) = pyIsSpaceCode n := by
  unfold pyLowerCode pyIsSpaceCode
  split
  · rename_i h
    have h1 : ∀ m : Nat, 33 ≤ m →
        (m == 32 || m == 9 || m == 10 || m == 13 || m == 11 || m == 12) = false := by
      intro m hm
      simp only [Bool.or_eq_false_iff, beq_eq_false_iff_ne, ne_eq]
      omega
    rw [h1 _ (by omega), h1 _ (by omega)]
  · rfl

theorem pyLower_pyStrip (l : List Nat) : pyLower (pyStrip l) = pyStrip (pyLower l) := by
  have hcomp : pyIsSpaceCode ∘ pyLowerCode = pyIsSpaceCode :=
    funext pyIsSpaceCode_pyLowerCode
  unfold pyLower pyStrip
  rw [List.dropWhile_map, hcomp, ← List.map_reverse, List.dropWhile_map, hcomp,
    List.map_reverse]

/-- Modelled from the spec: the keyword condition as the spec phrases it —
case-insensitively, the text contains `cookie` and at least one of
`stack` / `security` (the spec mentions no stripping). -/
def spec_cookie_keyword_condition (t : String) : Prop :=
  strCodes "cookie" <:+: pyLower (strCodes t) ∧
    (strCodes "stack" <:+: pyLower (strCodes t) ∨
      strCodes "security" <:+: pyLower (strCodes t))

theorem contains_stack_cookie_keywords_some_iff (t : String) :
    contains_stack_cookie_keywords (some t) = true ↔ spec_cookie_keyword_condition t := by
  unfold spec_cookie_keyword_condition
  by_cases ht : strCodes t = []
  · have hlhs : contains_stack_cookie_keywords (some t) = false := by
      simp [contains_stack_cookie_keywords, ht]
    rw [hlhs, ht]
    simp only [pyLower, List.map_nil]
    rw [List.infix_nil]
    simp [show strCodes "cookie" ≠ [] from by decide]
  · have hemp : (strCodes t).isEmpty = false := by
      simpa [List.isEmpty_iff] using ht
    have hck := infix_pyStrip_iff (strCodes "cookie") (pyLower (strCodes t))
      (by decide) (by decide)
    have hst := infix_pyStrip_iff (strCodes "stack") (pyLower (strCodes t))
      (by decide) (by decide)
    have hse := infix_pyStrip_iff (strCodes "security") (pyLower (strCodes t))
      (by decide) (by decide)
    simp only [contains_stack_cookie_keywords, hemp, Bool.false_eq_true, if_false,
      pyLower_pyStrip, hck, hst, hse]
    by_cases hc : strCodes "cookie" <:+: pyLower (strCodes t) <;>
      simp [hc]

/-- C5: the stack-cookie keyword test returns true if and only if,
case-insensitively, the given text contains `cookie` and at least one of
`stack` or `security`; for empty or absent text it returns false. -/
theorem contains_stack_cookie_keywords_iff :
    (∀ s : Option String, contains_stack_cookie_keywords s = true ↔
      ∃ t, s = some t ∧ spec_cookie_keyword_condition t) ∧
    contains_stack_cookie_keywords none = false ∧
    contains_stack_cookie_keywords (some "") = false := by
  refine ⟨fun s => ?_, by simp [contains_stack_cookie_keywords],
    by simp [contains_stack_cookie_keywords, strCodes]⟩
  cases s with
  | none => simp [contains_stack_cookie_keywords]
  | some t => simp [contains_stack_cookie_keywords_some_iff t]

/-- Modelled from the spec: encoding a displacement value as a 32-bit
two's-complement field — the value reduced modulo `2 ^ 32`. -/
def encode_32bit_field (v : Int) : Nat := (v % (2 : Int) ^ 32).toNat

/-- C3: for every displacement value in `[-2^31, 2^31 - 1]`, encoding it as a
32-bit two's-complement field and decoding it through the Offset extractor's
reinterpretation (`twos_complement` with 32 bits, as applied by
`extract_insn_offset_features`) yields back exactly the value. -/
theorem twos_complement_round_trip (v : Int)
    (hlo : -(2 ^ 31) ≤ v) (hhi : v ≤ 2 ^ 31 - 1) :
    twos_complement (encode_32bit_field v) 32 = v := by
  unfold twos_complement encode_32bit_field
  have e1 : (1 <<< 31 : Nat) = 2 ^ 31 := by simp [Nat.shiftLeft_eq]
  have e2 : (1 <<< 32 : Nat) = 2 ^ 32 := by simp [Nat.shiftLeft_eq]
  rw [e1, e2, Nat.and_two_pow, Nat.testBit_to_div_mod]
  split
  · rename_i h
    have hbit : (v % 2 ^ 32).toNat / 2 ^ 31 % 2 = 1 := by
      by_contra hb
      rw [decide_eq_false hb] at h
      exact absurd h (by decide)
    norm_num at hbit hlo hhi ⊢
    omega
  · rename_i h
    have hbit : ¬((v % 2 ^ 32).toNat / 2 ^ 31 % 2 = 1) := by
      intro hb
      rw [decide_eq_true hb] at h
      exact absurd h (by decide)
    norm_num at hbit hlo hhi ⊢
    omega

/-- Witness for the two's-complement round trip at a concrete input. -/
theorem twos_complement_round_trip_witness :
    (-(2 ^ 31) ≤ (-2 : Int)) ∧ ((-2 : Int) ≤ 2 ^ 31 - 1) ∧
      twos_complement (encode_32bit_field (-2)) 32 = -2 :=
  ⟨by decide, by decide, twos_complement_round_trip (-2) (by decide) (by decide)⟩

theorem filterMap_ite_eq_map_filter {α β : Type} (p c : α → Bool) (r : α → β) (l : List α) :
    (l.filter p).filterMap (fun a => if c a then none else some (r a)) =
      (l.filter (fun a => p a && !c a)).map r := by
  induction l with
  | nil => rfl
  | cons a l ih =>
    by_cases hp : p a <;> by_cases hc : c a <;>
      simp [List.filter_cons, hp, hc, ih]

theorem contains_singleton_beq (x y : Nat) : [x].contains y = (y == x) := by
  simp only [List.contains, List.elem_cons, List.elem_nil]
  cases h : y == x <;> simp [h]

/-- C1 (amended): for every non-call, non-return instruction that does not
modify the stack pointer, Number extraction emits exactly one
`Number(maskedValue)` tagged at the instruction's address for each immediate
operand whose masked value is not a mapped address, and nothing else. -/
theorem extract_insn_number_features_characterization (st : IdaState) (f : Func)
    (bb : BasicBlock) (insn : Insn)
    (_hcall : insn.isCall = false) (hret : insn.isRet = false)
    (hsp : insn.spModified = false) :
    extract_insn_number_features st f bb insn =
      (insn.ops.filter (fun op => op.type == o_imm && !st.isMapped (mask_op_val op))).map
        (fun op => (Feature.Number ((mask_op_val op : Nat) : Int), insn.ea)) := by
  unfold extract_insn_number_features is_sp_modified get_insn_ops
  rw [hret, hsp]
  simp only [Bool.false_eq_true, if_false]
  have hfil : insn.ops.filter (fun op => [o_imm].contains op.type) =
      insn.ops.filter (fun op => op.type == o_imm) := by
    apply List.filter_congr
    intro op _
    exact contains_singleton_beq o_imm op.type
  rw [hfil]
  exact filterMap_ite_eq_map_filter _ (fun op => st.isMapped (mask_op_val op)) _ _

/-- Backend state whose every query returns the empty or negative answer. -/
def null_state : IdaState :=
  { fileImports := fun _ => none,
    isMapped := fun _ => false,
    codeRefsFrom := fun _ => [],
    dataRefsFrom := fun _ => [],
    getFunc := fun _ => none,
    getseg := fun _ => none,
    getDisasm := fun _ => "",
    getCmt := fun _ => none,
    readBytesAt := fun _ _ => none,
    findStringAt := fun _ => none,
    instructionsInRange := fun _ _ => [] }

/-- Concrete function and block fixtures. -/
def plain_func : Func := { flags := 0 }

def plain_bb : BasicBlock := { start_ea := 0x401140, end_ea := 0x401150 }

/-- Immediate operand holding 12 (`0Ch`), four bytes wide. -/
def imm12_op : Operand :=
  { n := 0, type := o_imm, reg := 0, value := 12, width := 4,
    isWrite := false, isStackVar := false, phraseOffset := none }

/-- Instruction `add esp, 0Ch`: not a call, not a return, immediate operand
with unmapped value, but it adjusts the stack pointer. -/
def add_esp_insn : Insn :=
  { ea := 0x401145, itype := 2, canonMnem := "add", ops := [imm12_op],
    isCall := false, isRet := false, spModified := true }

/-- Counterexample to C1 as stated: `add esp, 0Ch` is a non-call, non-return
instruction with an immediate operand whose masked value (12) is not mapped,
yet Number extraction emits nothing, because the instruction modifies the
stack pointer. -/
theorem number_extraction_sp_modified_counterexample :
    add_esp_insn.isCall = false ∧ add_esp_insn.isRet = false ∧
    imm12_op ∈ add_esp_insn.ops ∧ imm12_op.type = o_imm ∧
    null_state.isMapped (mask_op_val imm12_op) = false ∧
    extract_insn_number_features null_state plain_func plain_bb add_esp_insn = [] ∧
    (Feature.Number ((mask_op_val imm12_op : Nat) : Int), add_esp_insn.ea) ∉
      extract_insn_number_features null_state plain_func plain_bb add_esp_insn := by
  refine ⟨rfl, rfl, by simp [add_esp_insn], rfl, rfl, rfl, by simp [extract_insn_number_features, add_esp_insn, is_sp_modified]⟩

/-- Instruction `push 0Ch`: like `add esp, 0Ch` but leaving the stack-pointer
flag clear, so the amended characterization applies. -/
def push12_insn : Insn :=
  { ea := 0x401149, itype := NN_push, canonMnem := "push", ops := [imm12_op],
    isCall := false, isRet := false, spModified := false }

/-- Witness instantiating the amended C1 characterization at `push 0Ch`. -/
theorem extract_insn_number_features_characterization_witness :
    push12_insn.isCall = false ∧ push12_insn.isRet = false ∧
    push12_insn.spModified = false ∧
    extract_insn_number_features null_state plain_func plain_bb push12_insn =
      (push12_insn.ops.filter
        (fun op => op.type == o_imm && !null_state.isMapped (mask_op_val op))).map
        (fun op => (Feature.Number ((mask_op_val op : Nat) : Int), push12_insn.ea)) :=
  ⟨rfl, rfl, rfl,
    extract_insn_number_features_characterization null_state plain_func plain_bb
      push12_insn rfl rfl rfl⟩

/-- C2: the nzxor detector emits `Characteristic("nzxor")` at the
instruction's address if and only if the instruction is an XOR, its two
operands are not syntactically identical, and it is not classified as
stack-cookie-related; nothing else is ever emitted by this detector. In
particular, for every XOR whose two operands are syntactically identical, no
nzxor characteristic is emitted. -/
theorem extract_insn_nzxor_iff (st : IdaState) (f : Func) (bb : BasicBlock)
    (insn : Insn) :
    ∀ q : Feature × Nat,
      q ∈ extract_insn_nzxor_characteristic_features st f bb insn ↔
        (q = (Feature.Characteristic "nzxor", insn.ea) ∧ insn.itype = NN_xor ∧
          is_operand_equal (op1 insn) (op2 insn) = false ∧
          is_nzxor_stack_cookie st f bb insn = false) := by
  intro q
  unfold extract_insn_nzxor_characteristic_features
  by_cases h1 : insn.itype = NN_xor
  · by_cases h2 : is_operand_equal (op1 insn) (op2 insn)
    · simp [h1, h2]
    · by_cases h3 : is_nzxor_stack_cookie st f bb insn
      · simp [h1, h2, h3]
      · simp [h1, h2, h3, Bool.not_eq_true, and_comm]
  · simp [bne_iff_ne, h1]

/-- C7: for every call instruction and every code reference from it, the
calls-from detector emits `Characteristic("calls from")` tagged at the call
target address (the reference), not at the call site; nothing is emitted for
non-call instructions, and every emitted pair carries the `calls from`
characteristic. -/
theorem extract_function_calls_from_characterization (st : IdaState) (f : Func)
    (bb : BasicBlock) (insn : Insn) :
    (∀ a : Nat,
      (Feature.Characteristic "calls from", a) ∈
          extract_function_calls_from st f bb insn ↔
        (insn.isCall = true ∧ a ∈ st.codeRefsFrom insn.ea)) ∧
    (insn.isCall = false → extract_function_calls_from st f bb insn = []) ∧
    (∀ q ∈ extract_function_calls_from st f bb insn,
      q.1 = Feature.Characteristic "calls from") := by
  unfold extract_function_calls_from
  by_cases hc : insn.isCall
  · refine ⟨fun a => by simp [hc], by simp [hc], ?_⟩
    intro q hq
    simp only [hc, if_true, List.mem_map] at hq
    rcases hq with ⟨ref, _, he⟩
    rw [← he]
  · simp [hc]

/-- Call instruction `call 0x403000` with a single direct code reference. -/
def call_insn : Insn :=
  { ea := 0x40114b, itype := 3, canonMnem := "call",
    ops := [{ n := 0, type := 7, reg := 0, value := 0x403000, width := 4,
              isWrite := false, isStackVar := false, phraseOffset := none }],
    isCall := true, isRet := false, spModified := true }

/-- Backend state in which `call_insn` has exactly one code reference, to
`0x403000`. -/
def call_state : IdaState :=
  { null_state with
    codeRefsFrom := fun ea => if ea = 0x40114b then [0x403000] else [] }

/-- Witness instantiating C7 at a concrete call and at a concrete non-call. -/
theorem extract_function_calls_from_witness :
    ((Feature.Characteristic "calls from", 0x403000) ∈
        extract_function_calls_from call_state plain_func plain_bb call_insn ↔
      (call_insn.isCall = true ∧
        0x403000 ∈ call_state.codeRefsFrom call_insn.ea)) ∧
    add_esp_insn.isCall = false ∧
    extract_function_calls_from call_state plain_func plain_bb add_esp_insn = [] :=
  ⟨(extract_function_calls_from_characterization call_state plain_func plain_bb
      call_insn).1 0x403000,
    rfl,
    (extract_function_calls_from_characterization call_state plain_func plain_bb
      add_esp_insn).2.1 rfl⟩


theorem api_names_for_ref_mem (imp : ImportMap) (st : IdaState) (name : String)
    (ref : Nat) :
    name ∈ api_names_for_ref imp st ref ↔
      ((∃ m s, imp ref = some (m, s) ∧ name = m ++ "." ++ s) ∨
        (imp ref = none ∧ ∃ fn, st.getFunc ref = some fn ∧
          fn.flags &&& FUNC_THUNK ≠ 0 ∧
          ∃ tr ∈ st.dataRefsFrom ref, ∃ m s,
            imp tr = some (m, s) ∧ name = m ++ "." ++ s)) := by
  unfold api_names_for_ref
  rcases himp : imp ref with - | ⟨m', s'⟩
  · rcases hfn : st.getFunc ref with - | fn
    · simp
    · by_cases hth : fn.flags &&& FUNC_THUNK = 0
      · simp [hth]
      · have hbne : (fn.flags &&& FUNC_THUNK != 0) = true := bne_iff_ne.mpr hth
        simp only [hbne, if_true, List.mem_filterMap, Option.some.injEq]
        constructor
        · rintro ⟨tr, htr, hg⟩
          rcases himp2 : imp tr with - | ⟨m2, s2⟩
          · rw [himp2] at hg
            simp at hg
          · rw [himp2] at hg
            have hg' : m2 ++ "." ++ s2 = name := by simpa using hg
            exact Or.inr ⟨by trivial, fn, rfl, hth, tr, htr, m2, s2, himp2, hg'.symm⟩
        · rintro (⟨m, s, hsome, -⟩ | ⟨-, fn2, hfn2, -, tr, htr, m, s, himp2, hname⟩)
          · exact absurd hsome (by simp)
          · refine ⟨tr, htr, ?_⟩
            rw [himp2]
            simp [hname]
  · constructor
    · intro h
      have hn : name = m' ++ "." ++ s' := by simpa using h
      exact Or.inl ⟨m', s', rfl, hn⟩
    · rintro (⟨m, s, hsome, hname⟩ | ⟨hnone, -⟩)
      · have hms : m' = m ∧ s' = s := by simpa using hsome
        rw [hname, ← hms.1, ← hms.2]
        simp
      · exact absurd hnone (by simp)

/-- C4: API resolution applies only to call instructions; a name is yielded
exactly when some code reference from the call either is a known import, or
points into a thunk-flagged function one of whose data references is a known
imported address — no deeper indirection level ever contributes. The last conjunct is
the spec's concrete scenario: a call whose single code reference is a thunk
with exactly one data reference to a known import resolves to that import's
`module.symbol`. -/
theorem check_for_api_call_characterization (imp : ImportMap) (st : IdaState)
    (insn : Insn) :
    (insn.isCall = false → check_for_api_call imp st insn = []) ∧
    (∀ name : String, name ∈ check_for_api_call imp st insn ↔
      (insn.isCall = true ∧ ∃ ref ∈ st.codeRefsFrom insn.ea,
        ((∃ m s, imp ref = some (m, s) ∧ name = m ++ "." ++ s) ∨
          (imp ref = none ∧ ∃ fn, st.getFunc ref = some fn ∧
            fn.flags &&& FUNC_THUNK ≠ 0 ∧
            ∃ tr ∈ st.dataRefsFrom ref, ∃ m s,
              imp tr = some (m, s) ∧ name = m ++ "." ++ s)))) ∧
    (∀ t fn a m s, insn.isCall = true → st.codeRefsFrom insn.ea = [t] →
      imp t = none → st.getFunc t = some fn → fn.flags &&& FUNC_THUNK ≠ 0 →
      st.dataRefsFrom t = [a] → imp a = some (m, s) →
      check_for_api_call imp st insn = [m ++ "." ++ s]) := by
  refine ⟨?_, ?_, ?_⟩
  · intro hcall
    unfold check_for_api_call
    simp [hcall]
  · intro name
    by_cases hc : insn.isCall
    · unfold check_for_api_call
      simp only [hc, Bool.not_true, Bool.false_eq_true, if_false, List.mem_flatMap,
        true_and]
      exact exists_congr fun ref =>
        and_congr_right fun _ => api_names_for_ref_mem imp st name ref
    · have hc' : insn.isCall = false := (Bool.not_eq_true _).mp hc
      unfold check_for_api_call
      simp [hc']
  · intro t fn a m s hcall hrefs himpt hfn hth hdata himpa
    unfold check_for_api_call api_names_for_ref
    rw [hcall, hrefs]
    simp only [Bool.not_true, Bool.false_eq_true, if_false, List.flatMap_cons,
      List.flatMap_nil, List.append_nil, himpt, hfn, bne_iff_ne.mpr hth, if_true,
      hdata, List.filterMap_cons, List.filterMap_nil, himpa]

/-- Import table holding one entry, `0x473038 -> (KERNEL32, CreateFileA)`. -/
def thunk_imports : ImportMap :=
  fun a => if a = 0x473038 then some ("KERNEL32", "CreateFileA") else none

/-- Backend state for the thunk scenario: the call at `0x40114b` references
`0x402000`, which lies in a thunk-flagged function whose single data
reference is the import slot `0x473038`. -/
def thunk_state : IdaState :=
  { null_state with
    fileImports := thunk_imports,
    codeRefsFrom := fun ea => if ea = 0x40114b then [0x402000] else [],
    dataRefsFrom := fun ea => if ea = 0x402000 then [0x473038] else [],
    getFunc := fun ea => if ea = 0x402000 then some { flags := FUNC_THUNK } else none }

/-- Witness instantiating C4 on the concrete thunk scenario. -/
theorem check_for_api_call_witness :
    call_insn.isCall = true ∧
    thunk_state.codeRefsFrom call_insn.ea = [0x402000] ∧
    thunk_imports 0x402000 = none ∧
    thunk_state.getFunc 0x402000 = some { flags := FUNC_THUNK } ∧
    Func.flags { flags := FUNC_THUNK } &&& FUNC_THUNK ≠ 0 ∧
    thunk_state.dataRefsFrom 0x402000 = [0x473038] ∧
    thunk_imports 0x473038 = some ("KERNEL32", "CreateFileA") ∧
    check_for_api_call thunk_imports thunk_state call_insn =
      ["KERNEL32" ++ "." ++ "CreateFileA"] :=
  ⟨rfl, by decide, by decide, by decide, by decide, by decide, by decide,
    (check_for_api_call_characterization thunk_imports thunk_state call_insn).2.2
      0x402000 { flags := FUNC_THUNK } 0x473038 "KERNEL32" "CreateFileA"
      rfl (by decide) (by decide) (by decide) (by decide) (by decide) (by decide)⟩

/-- Modelled from the spec: the block's tainted-register collection as the
claim words it — scan every instruction whose disassembly text OR comment
matches the keyword test, and take the register ids of its written register
operands. -/
def spec_bb_cookie_registers (st : IdaState) (bb : BasicBlock) : List Nat :=
  (st.instructionsInRange bb.start_ea bb.end_ea).flatMap (fun insn =>
    if contains_stack_cookie_keywords (some (st.getDisasm insn.ea)) ||
        contains_stack_cookie_keywords (st.getCmt insn.ea) then
      (get_insn_ops insn [o_reg]).filterMap (fun op =>
        if is_op_write insn op then some op.reg else none)
    else [])

/-- Modelled from the spec: the cookie classification as the claim words it —
the instruction's own inline comment matches the keyword test, or either of
its two register operands is in the block's tainted-register set. -/
def spec_is_nzxor_stack_cookie (st : IdaState) (_f : Func) (bb : BasicBlock)
    (insn : Insn) : Bool :=
  contains_stack_cookie_keywords (st.getCmt insn.ea) ||
    ([op1 insn, op2 insn].filter (fun op => op.type == o_reg)).any
      (fun op => (spec_bb_cookie_registers st bb).contains op.reg)

/-- Instruction `mov edi, eax` at address 100, writing register 7 (edi); its
inline comment is `security cookie`, but its rendered disassembly line holds
no cookie keywords. -/
def mov_edi_insn : Insn :=
  { ea := 100, itype := NN_mov, canonMnem := "mov",
    ops := [{ n := 0, type := o_reg, reg := 7, value := 7, width := 4,
              isWrite := true, isStackVar := false, phraseOffset := none },
            { n := 1, type := o_reg, reg := 0, value := 0, width := 4,
              isWrite := false, isStackVar := false, phraseOffset := none }],
    isCall := false, isRet := false, spModified := false }

/-- Instruction `xor ebx, edi` at address 102, reading register 7 (edi) as
its second operand; it has no inline comment of its own. -/
def xor_ebx_edi_insn : Insn :=
  { ea := 102, itype := NN_xor, canonMnem := "xor",
    ops := [{ n := 0, type := o_reg, reg := 3, value := 3, width := 4,
              isWrite := true, isStackVar := false, phraseOffset := none },
            { n := 1, type := o_reg, reg := 7, value := 7, width := 4,
              isWrite := false, isStackVar := false, phraseOffset := none }],
    isCall := false, isRet := false, spModified := false }

/-- Basic block `[100, 104)` holding the two instructions above. -/
def cookie_bb : BasicBlock := { start_ea := 100, end_ea := 104 }

/-- Backend state for the cookie-taint scenario: the keyword match at address
100 exists only in the inline comment, never in the rendered disassembly. -/
def cookie_state : IdaState :=
  { null_state with
    getDisasm := fun ea => if ea = 100 then "mov edi, eax" else "xor ebx, edi",
    getCmt := fun ea => if ea = 100 then some "security cookie" else none,
    instructionsInRange := fun s e =>
      if s = 100 ∧ e = 104 then [mov_edi_insn, xor_ebx_edi_insn] else [] }

/-- Counterexample to C6 as stated: in `cookie_state`, the instruction at 100
matches the keyword test through its comment only, so the spec-worded
classification taints register 7 and classifies the XOR at 102 as
cookie-related, while the code scans only the rendered disassembly line and
classifies it as not cookie-related. -/
theorem stack_cookie_comment_taint_counterexample :
    spec_is_nzxor_stack_cookie cookie_state plain_func cookie_bb xor_ebx_edi_insn
        = true ∧
      is_nzxor_stack_cookie cookie_state plain_func cookie_bb xor_ebx_edi_insn
        = false := by
  constructor <;> decide

/-- C6 (amended): an XOR instruction is classified as cookie-related if and
only if (a) its own inline comment matches the keyword test, or (b) the raw
register field of either of its first two operand slots — read whatever the
operand kind — is in the block's tainted-register set; the tainted set holds
exactly the register ids of written register-kind operands of instructions
whose rendered disassembly line (not the separately stored comment) matches
the keyword test. -/
theorem is_nzxor_stack_cookie_characterization (st : IdaState) (f : Func)
    (bb : BasicBlock) (insn : Insn) :
    (is_nzxor_stack_cookie st f bb insn = true ↔
      (contains_stack_cookie_keywords (st.getCmt insn.ea) = true ∨
        (op1 insn).reg ∈ bb_stack_cookie_registers st bb ∨
        (op2 insn).reg ∈ bb_stack_cookie_registers st bb)) ∧
    (∀ r : Nat, r ∈ bb_stack_cookie_registers st bb ↔
      ∃ i ∈ st.instructionsInRange bb.start_ea bb.end_ea,
        contains_stack_cookie_keywords (some (st.getDisasm i.ea)) = true ∧
        ∃ op ∈ i.ops, op.type = o_reg ∧ op.isWrite = true ∧ op.reg = r) := by
  constructor
  · unfold is_nzxor_stack_cookie
    by_cases hcmt : contains_stack_cookie_keywords (st.getCmt insn.ea)
    · simp [hcmt]
    · simp [hcmt, List.elem_iff]
  · intro r
    unfold bb_stack_cookie_registers get_insn_ops
    rw [List.mem_flatMap]
    apply exists_congr
    intro i
    apply and_congr_right
    intro _
    by_cases hd : contains_stack_cookie_keywords (some (st.getDisasm i.ea))
    · simp only [hd, if_true, true_and, List.mem_filterMap, List.mem_filter,
        is_op_write, contains_singleton_beq, Option.ite_none_right_eq_some,
        Option.some.injEq]
      constructor
      · rintro ⟨op, ⟨hmem, hty⟩, hw, hr⟩
        exact ⟨op, hmem, beq_iff_eq.mp hty, hw, hr⟩
      · rintro ⟨op, hmem, hty, hw, hr⟩
        exact ⟨op, ⟨hmem, beq_iff_eq.mpr hty⟩, hw, hr⟩
    · simp [hd]

/-- Predicate picking out Mnemonic features in an emitted stream. -/
def isMnemFeature : Feature × Nat → Bool := fun p =>
  match p.1 with
  | Feature.Mnemonic _ => true
  | _ => false

theorem filter_isMnem_filterMap_nil {α : Type} (l : List α)
    (g : α → Option (Feature × Nat))
    (hg : ∀ a p, g a = some p → isMnemFeature p = false) :
    (l.filterMap g).filter isMnemFeature = [] := by
  rw [List.filter_eq_nil_iff]
  intro p hp
  rcases List.mem_filterMap.mp hp with ⟨a, -, hga⟩
  simp [hg a p hga]

theorem filter_isMnem_map_nil {α : Type} (l : List α) (g : α → Feature × Nat)
    (hg : ∀ a, isMnemFeature (g a) = false) :
    (l.map g).filter isMnemFeature = [] := by
  rw [List.filter_eq_nil_iff]
  intro p hp
  rcases List.mem_map.mp hp with ⟨a, -, hga⟩
  simp [← hga, hg a]

theorem api_filter_no_mnem (imp : ImportMap) (st : IdaState) (f : Func)
    (bb : BasicBlock) (insn : Insn) :
    (extract_insn_api_features imp st f bb insn).filter isMnemFeature = [] := by
  rw [List.filter_eq_nil_iff]
  intro p hp
  unfold extract_insn_api_features at hp
  rcases List.mem_flatMap.mp hp with ⟨api, -, hmem⟩
  unfold generate_api_features at hmem
  rcases List.mem_cons.mp hmem with h | h
  · simp [h, isMnemFeature]
  · rcases List.mem_cons.mp h with h2 | h2
    · simp [h2, isMnemFeature]
    · exact absurd h2 (List.not_mem_nil p)

theorem number_filter_no_mnem (st : IdaState) (f : Func) (bb : BasicBlock)
    (insn : Insn) :
    (extract_insn_number_features st f bb insn).filter isMnemFeature = [] := by
  by_cases h1 : insn.isRet
  · simp [extract_insn_number_features, h1]
  · by_cases h2 : is_sp_modified insn
    · simp [extract_insn_number_features, h1, h2]
    · unfold extract_insn_number_features
      rw [if_neg h1, if_neg h2]
      apply filter_isMnem_filterMap_nil
      intro a p hg
      try dsimp only at hg
      by_cases hm : st.isMapped (mask_op_val a)
      · rw [if_pos hm] at hg
        cases hg
      · rw [if_neg hm] at hg
        rw [← Option.some.inj hg]
        rfl

theorem bytes_filter_no_mnem (st : IdaState) (f : Func) (bb : BasicBlock)
    (insn : Insn) :
    (extract_insn_bytes_features st f bb insn).filter isMnemFeature = [] := by
  by_cases h1 : insn.isCall
  · simp [extract_insn_bytes_features, h1]
  · unfold extract_insn_bytes_features
    rw [if_neg h1]
    apply filter_isMnem_filterMap_nil
    intro a p hg
    try dsimp only at hg
    rcases hrb : st.readBytesAt a MAX_BYTES_FEATURE_SIZE with - | bs
    · rw [hrb] at hg
      cases hg
    · rw [hrb] at hg
      dsimp only at hg
      by_cases hz : !bs.isEmpty && !all_zeros bs
      · rw [if_pos hz] at hg
        rw [← Option.some.inj hg]
        rfl
      · rw [if_neg hz] at hg
        cases hg

theorem string_filter_no_mnem (st : IdaState) (f : Func) (bb : BasicBlock)
    (insn : Insn) :
    (extract_insn_string_features st f bb insn).filter isMnemFeature = [] := by
  unfold extract_insn_string_features
  apply filter_isMnem_filterMap_nil
  intro a p hg
  try dsimp only at hg
  rcases hfs : st.findStringAt a with - | found
  · rw [hfs] at hg
    cases hg
  · rw [hfs] at hg
    dsimp only at hg
    by_cases he : !found.isEmpty
    · rw [if_pos he] at hg
      rw [← Option.some.inj hg]
      rfl
    · rw [if_neg he] at hg
      cases hg

theorem offset_filter_no_mnem (st : IdaState) (f : Func) (bb : BasicBlock)
    (insn : Insn) :
    (extract_insn_offset_features st f bb insn).filter isMnemFeature = [] := by
  unfold extract_insn_offset_features
  apply filter_isMnem_filterMap_nil
  intro a p hg
  try dsimp only at hg
  by_cases hs : is_op_stack_var a
  · rw [if_pos hs] at hg
    cases hg
  · rw [if_neg hs] at hg
    by_cases hm : st.isMapped ((get_op_phrase_info a).getD 0)
    · rw [if_pos hm] at hg
      cases hg
    · rw [if_neg hm] at hg
      rw [← Option.some.inj hg]
      rfl

theorem nzxor_filter_no_mnem (st : IdaState) (f : Func) (bb : BasicBlock)
    (insn : Insn) :
    (extract_insn_nzxor_characteristic_features st f bb insn).filter
      isMnemFeature = [] := by
  unfold extract_insn_nzxor_characteristic_features
  split
  · rfl
  split
  · rfl
  split
  · rfl
  rfl

theorem mnemonic_filter_eq (f : Func) (bb : BasicBlock) (insn : Insn) :
    (extract_insn_mnemonic_features f bb insn).filter isMnemFeature =
      [(Feature.Mnemonic insn.canonMnem, insn.ea)] := rfl

theorem peb_filter_no_mnem (st : IdaState) (f : Func) (bb : BasicBlock)
    (insn : Insn) :
    (extract_insn_peb_access_characteristic_features st f bb insn).filter
      isMnemFeature = [] := by
  unfold extract_insn_peb_access_characteristic_features
  split
  · rfl
  split
  · rfl
  dsimp only
  split
  · rfl
  rfl

theorem segment_filter_no_mnem (st : IdaState) (f : Func) (bb : BasicBlock)
    (insn : Insn) :
    (extract_insn_segment_access_features st f bb insn).filter
      isMnemFeature = [] := by
  unfold extract_insn_segment_access_features
  split
  · rfl
  dsimp only
  rw [List.filter_append]
  split <;> split <;> rfl

theorem cross_section_filter_no_mnem (imp : ImportMap) (st : IdaState)
    (f : Func) (bb : BasicBlock) (insn : Insn) :
    (extract_insn_cross_section_cflow imp st f bb insn).filter
      isMnemFeature = [] := by
  unfold extract_insn_cross_section_cflow
  apply filter_isMnem_filterMap_nil
  intro a p hg
  try dsimp only at hg
  by_cases hi : (imp a).isSome
  · rw [if_pos hi] at hg
    cases hg
  · rw [if_neg hi] at hg
    rcases hseg : st.getseg a with - | seg
    · rw [hseg] at hg
      cases hg
    · rw [hseg] at hg
      dsimp only at hg
      by_cases he : st.getseg insn.ea = some seg
      · rw [if_pos he] at hg
        cases hg
      · rw [if_neg he] at hg
        rw [← Option.some.inj hg]
        rfl

theorem calls_from_filter_no_mnem (st : IdaState) (f : Func) (bb : BasicBlock)
    (insn : Insn) :
    (extract_function_calls_from st f bb insn).filter isMnemFeature = [] := by
  unfold extract_function_calls_from
  split
  · apply filter_isMnem_map_nil
    intro a
    rfl
  · rfl

theorem indirect_filter_no_mnem (st : IdaState) (f : Func) (bb : BasicBlock)
    (insn : Insn) :
    (extract_function_indirect_call_characteristic_features st f bb insn).filter
      isMnemFeature = [] := by
  unfold extract_function_indirect_call_characteristic_features
  split
  · rfl
  · rfl

/-- C10: for every instruction, whatever its kind and operands, the
aggregator emits exactly one Mnemonic feature, carrying the instruction's
canonical mnemonic and tagged at the instruction's own address. -/
theorem extract_features_unique_mnemonic (st : IdaState) (f : Func)
    (bb : BasicBlock) (insn : Insn) (cache : ImportCache) :
    ((extract_features st f bb insn cache).1).filter isMnemFeature =
      [(Feature.Mnemonic insn.canonMnem, insn.ea)] := by
  unfold extract_features INSTRUCTION_HANDLERS
  simp only [List.flatMap_cons, List.flatMap_nil, List.append_nil,
    List.filter_append, api_filter_no_mnem, number_filter_no_mnem,
    bytes_filter_no_mnem, string_filter_no_mnem, offset_filter_no_mnem,
    nzxor_filter_no_mnem, mnemonic_filter_eq, peb_filter_no_mnem,
    cross_section_filter_no_mnem, segment_filter_no_mnem,
    calls_from_filter_no_mnem, indirect_filter_no_mnem,
    List.nil_append]

/-- C8: running the aggregator twice over the same immutable backend state
yields the identical feature list: starting from any cache state the run can
produce (empty, or already filled from this state's import table), a second
run threaded through the first run's final cache emits exactly the same
`(Feature, Address)` pairs and leaves the cache unchanged. -/
theorem extract_features_idempotent (st : IdaState) (f : Func)
    (bb : BasicBlock) (insn : Insn) (cache : ImportCache)
    (hc : cache = none ∨ cache = some st.fileImports) :
    ((extract_features st f bb insn
        ((extract_features st f bb insn cache).2)).1 =
      (extract_features st f bb insn cache).1) ∧
    ((extract_features st f bb insn
        ((extract_features st f bb insn cache).2)).2 =
      (extract_features st f bb insn cache).2) := by
  rcases hc with h | h <;> subst h <;>
    simp [extract_features, get_imports]

/-- Witness instantiating C8 at a concrete state with an empty cache. -/
theorem extract_features_idempotent_witness :
    ((none : ImportCache) = none ∨
      (none : ImportCache) = some null_state.fileImports) ∧
    (((extract_features null_state plain_func plain_bb push12_insn
        ((extract_features null_state plain_func plain_bb push12_insn none).2)).1 =
      (extract_features null_state plain_func plain_bb push12_insn none).1) ∧
    ((extract_features null_state plain_func plain_bb push12_insn
        ((extract_features null_state plain_func plain_bb push12_insn none).2)).2 =
      (extract_features null_state plain_func plain_bb push12_insn none).2)) :=
  ⟨Or.inl rfl,
    extract_features_idempotent null_state plain_func plain_bb push12_insn none
      (Or.inl rfl)⟩

/-- C9: for every input tuple, the batch worker returns a record carrying the
sample path, a status of `ok` or `error`, a human-readable message
distinguished by failure kind exactly in the error case, and a result payload
exactly in the success case; being a total function of the modelled outcome,
it never lets a failure while processing one sample escape the worker. -/
theorem get_capa_results_shape (env : CapaEnv)
    (args : String × String × String) :
    ((get_capa_results env args).path = args.2.2) ∧
    ((get_capa_results env args).status = "ok" ∨
      (get_capa_results env args).status = "error") ∧
    ((get_capa_results env args).status = "error" ↔
      ((get_capa_results env args).error).isSome) ∧
    ((get_capa_results env args).status = "ok" ↔
      ((get_capa_results env args).ok).isSome) ∧
    (env.get_extractor args.2.2 args.2.1 =
        ExtractorOutcome.unsupportedFormatError →
      (get_capa_results env args).error =
        some ("input file does not appear to be a PE file: " ++ args.2.2)) ∧
    (env.get_extractor args.2.2 args.2.1 =
        ExtractorOutcome.unsupportedRuntimeError →
      (get_capa_results env args).error =
        some "unsupported runtime or Python interpreter") ∧
    (∀ msg, env.get_extractor args.2.2 args.2.1 =
        ExtractorOutcome.unexpectedError msg →
      (get_capa_results env args).error =
        some ("unexpected error: " ++ msg)) := by
  obtain ⟨rules, format, path⟩ := args
  rcases hx : env.get_extractor path format with ext | - | - | msg <;>
    simp [get_capa_results, hx]

/-- Environment whose extractor construction always reports an unsupported
input format. -/
def bad_format_env : CapaEnv :=
  { get_extractor := fun _ _ => ExtractorOutcome.unsupportedFormatError,
    collect_metadata := fun _ _ _ => "",
    find_capabilities := fun _ _ => ("", ""),
    update_analysis := fun m _ => m }

/-- Witness instantiating C9 on a concrete failing sample. -/
theorem get_capa_results_shape_witness :
    bad_format_env.get_extractor "a.dll" "pe" =
      ExtractorOutcome.unsupportedFormatError ∧
    (get_capa_results bad_format_env ("rules", "pe", "a.dll")).error =
      some ("input file does not appear to be a PE file: " ++ "a.dll") ∧
    (get_capa_results bad_format_env ("rules", "pe", "a.dll")).path = "a.dll" :=
  ⟨rfl,
    (get_capa_results_shape bad_format_env ("rules", "pe", "a.dll")).2.2.2.2.1 rfl,
    (get_capa_results_shape bad_format_env ("rules", "pe", "a.dll")).1⟩
